import Mathlib

/-!
Verification of the request pipeline of a Next.js HTML-to-Markdown middleware.

The development shallowly embeds the TypeScript sources: strings are
modelled as lists of characters, Headers objects as association lists
keyed by lower-cased names, fallible platform calls as explicit outcome
values, and the external markdown conversion capability as a function
parameter.  Definitions come first; the theorems at the end of the file
settle the frozen claims against these definitions.
-/

/-! ### Basic string helpers (JS string operations over lists of characters) -/

/-- Lower-casing of one character, as the JS toLowerCase acts on ASCII. -/
def lowerChar (c : Char) : Char :=
  if 65 ≤ c.toNat ∧ c.toNat ≤ 90 then Char.ofNat (c.toNat + 32) else c

/-- Lower-casing of a string. -/
def lowerStr (s : List Char) : List Char := s.map lowerChar

/-- Models the JS startsWith test. -/
def strStarts : List Char → List Char → Bool
  | [], _ => true
  | _ :: _, [] => false
  | p :: ps, c :: cs => p == c && strStarts ps cs

/-- Models the JS endsWith test. -/
def strEnds (p s : List Char) : Bool := strStarts p.reverse s.reverse

/-- Case-insensitive startsWith. -/
def ciStarts : List Char → List Char → Bool
  | [], _ => true
  | _ :: _, [] => false
  | p :: ps, c :: cs => lowerChar p == lowerChar c && ciStarts ps cs

/-- Models the JS includes test (substring occurrence). -/
def containsSub (needle : List Char) : List Char → Bool
  | [] => strStarts needle []
  | c :: tail => strStarts needle (c :: tail) || containsSub needle tail

/-- Index of the first occurrence of a character, if any. -/
def idxOfChar (c : Char) : List Char → Option Nat
  | [] => none
  | x :: xs => if x == c then some 0 else (idxOfChar c xs).map (· + 1)

/-- Whitespace characters recognised by JS trim and parseInt. -/
def isJsSpace (c : Char) : Bool :=
  c == ' ' || c == '\t' || c == '\n' || c == '\r' || c == '\x0b' || c == '\x0c'

/-- Models the JS trim. -/
def trimStr (s : List Char) : List Char :=
  ((s.dropWhile isJsSpace).reverse.dropWhile isJsSpace).reverse

/-- Decimal digit test. -/
def isDigitCh (c : Char) : Bool := decide ('0' ≤ c ∧ c ≤ '9')

/-- Value of the leading run of decimal digits. -/
def digitsToNat (ds : List Char) : Nat :=
  ds.foldl (fun acc c => 10 * acc + (c.toNat - 48)) 0

/-- Leading decimal digits of a string; none when the first character is not a digit. -/
def parseLeadingDigits (s : List Char) : Option Nat :=
  match s.takeWhile isDigitCh with
  | [] => none
  | ds => some (digitsToNat ds)

/-- Models the JS parseInt with radix 10: optional surrounding whitespace and
sign, then a leading digit run; none models the NaN result. -/
def jsParseInt (s : List Char) : Option Int :=
  let t := s.dropWhile isJsSpace
  match t with
  | '-' :: rest => (parseLeadingDigits rest).map (fun n => -(n : Int))
  | '+' :: rest => (parseLeadingDigits rest).map (fun n => (n : Int))
  | _ => (parseLeadingDigits t).map (fun n => (n : Int))

/-! ### Headers model

A Fetch API Headers object is modelled as an association list whose keys
are stored lower-cased; lookup is case-insensitive, set normalises the
name to lower case and replaces the existing entry or appends a fresh
one (header names are unique in a Headers object), delete removes the
entry. -/

/-- The state of a Fetch API Headers object. -/
abbrev HeadersMap := List (List Char × List Char)

/-- Models Headers.get: case-insensitive lookup, null when absent. -/
def headersGet (hs : HeadersMap) (name : List Char) : Option (List Char) :=
  match List.find? (fun p => lowerStr p.1 == lowerStr name) hs with
  | some p => some p.2
  | none => none

/-- Replace the entry under an already lower-cased key, or append it. -/
def setEntry : HeadersMap → List Char → List Char → HeadersMap
  | [], ln, v => [(ln, v)]
  | p :: rest, ln, v => if p.1 == ln then (ln, v) :: rest else p :: setEntry rest ln v

/-- Models Headers.set. -/
def headersSet (hs : HeadersMap) (name value : List Char) : HeadersMap :=
  setEntry hs (lowerStr name) value

/-- Models Headers.delete: remove every entry under the name. -/
def headersDelete (hs : HeadersMap) (name : List Char) : HeadersMap :=
  List.filter (fun p => !(lowerStr p.1 == lowerStr name)) hs

/-- JS string truthiness of a nullable header value: null and the empty
string are falsy. -/
def jsTruthyStr (s : Option (List Char)) : Bool :=
  match s with
  | some v => !v.isEmpty
  | none => false

/-- Models the JS expression a or-else d on a nullable string: the default
is taken when the value is null or empty. -/
def jsOrStr (s : Option (List Char)) (d : List Char) : List Char :=
  match s with
  | some v => if v.isEmpty then d else v
  | none => d

/-- Models the JS expression a or-else d on an optional number: the default
is taken when the value is undefined or zero, since 0 is falsy. -/
def jsOrNat (x : Option Nat) (d : Nat) : Nat :=
  match x with
  | some v => if v = 0 then d else v
  | none => d

/-! ### utils.ts: SAFE_HEADERS, validateInternalRequest, extractSafeHeaders -/

/-- The fixed allow-list of forwardable header names (utils.ts SAFE_HEADERS). -/
def SAFE_HEADERS : List (List Char) :=
  ["user-agent".data, "accept-language".data, "accept-encoding".data,
   "accept".data, "referer".data, "origin".data]

/-- Result type of the SSRF validation (types.ts RequestValidationResult). -/
structure RequestValidationResult where
  isValid : Bool
  error : Option (List Char)
deriving DecidableEq

/-- Name of the Host header. -/
def hostHeaderName : List Char := "host".data

/-- The Missing Host header message. -/
def missingHostMsg : List Char := "Missing Host header".data

/-- The external-URL rejection message for a hostname. -/
def externalUrlMsg (h : List Char) : List Char :=
  "External URL not allowed: ".data ++ h

/-- Embedding of utils.ts validateInternalRequest.  The URL argument is
represented by its hostname component; the request by its header map.
Mirrors the source: an empty hostname is always valid; a missing (or, by
JS truthiness, empty) Host header is invalid; otherwise the Host value is
stripped of its port (bracketed IPv6 values are unbracketed by locating
the closing bracket) and the hostname must be one of localhost, 127.0.0.1,
the IPv6 loopback, or the stripped Host value. -/
def validateInternalRequest (urlHostname0 : List Char) (reqHeaders : HeadersMap) :
    RequestValidationResult :=
  if urlHostname0.isEmpty then ⟨true, none⟩
  else
    match headersGet reqHeaders hostHeaderName with
    | none => ⟨false, some missingHostMsg⟩
    | some requestHost =>
      if requestHost.isEmpty then ⟨false, some missingHostMsg⟩
      else
        let requestHostname :=
          match requestHost with
          | '[' :: _ =>
            match idxOfChar ']' requestHost with
            | some i => (requestHost.drop 1).take (i - 1)
            | none => requestHost
          | _ => requestHost.takeWhile (fun c => !(c == ':'))
        if urlHostname0 = "localhost".data ∨ urlHostname0 = "127.0.0.1".data ∨
            urlHostname0 = "::1".data ∨ urlHostname0 = requestHostname then
          ⟨true, none⟩
        else ⟨false, some (externalUrlMsg urlHostname0)⟩

/-- Port stripping as the specification words it: IPv6 Host values are
unbracketed by locating the closing bracket, other values lose everything
from the first colon on. -/
def stripHostPort (requestHost : List Char) : List Char :=
  match requestHost with
  | '[' :: _ =>
    match idxOfChar ']' requestHost with
    | some i => (requestHost.drop 1).take (i - 1)
    | none => requestHost
  | _ => requestHost.takeWhile (fun c => !(c == ':'))

/-- The SSRF reference definition exactly as the claim states it: empty
hostname is valid; a request that carries no Host header is invalid with
the Missing Host message; otherwise the hostname must be among localhost,
127.0.0.1, the IPv6 loopback, or the request hostname with its port
removed, and any other hostname h is invalid with the external-URL
message naming h. -/
def ssrfRef (urlHostname0 : List Char) (reqHeaders : HeadersMap) :
    RequestValidationResult :=
  if urlHostname0.isEmpty then ⟨true, none⟩
  else
    match headersGet reqHeaders hostHeaderName with
    | none => ⟨false, some missingHostMsg⟩
    | some requestHost =>
      if urlHostname0 ∈ ["localhost".data, "127.0.0.1".data, "::1".data,
          stripHostPort requestHost] then ⟨true, none⟩
      else ⟨false, some (externalUrlMsg urlHostname0)⟩

/-- The SSRF reference definition amended at the single point the code
deviates: a Host header carried with an empty value is treated like an
absent one. -/
def ssrfRefAmended (urlHostname0 : List Char) (reqHeaders : HeadersMap) :
    RequestValidationResult :=
  if urlHostname0.isEmpty then ⟨true, none⟩
  else
    match headersGet reqHeaders hostHeaderName with
    | none => ⟨false, some missingHostMsg⟩
    | some requestHost =>
      if requestHost.isEmpty then ⟨false, some missingHostMsg⟩
      else if urlHostname0 ∈ ["localhost".data, "127.0.0.1".data, "::1".data,
          stripHostPort requestHost] then ⟨true, none⟩
      else ⟨false, some (externalUrlMsg urlHostname0)⟩

/-- The body of the extraction loop of utils.ts extractSafeHeaders when a
forward list is supplied: the lower-cased name must pass the allow-list,
its inbound value must be truthy, and then the pair is set. -/
def forwardStep (reqHeaders : HeadersMap) (hs : HeadersMap) (headerName : List Char) :
    HeadersMap :=
  if SAFE_HEADERS.contains (lowerStr headerName) then
    match headersGet reqHeaders headerName with
    | some v => if v.isEmpty then hs else headersSet hs headerName v
    | none => hs
  else hs

/-- The body of the extraction loop of utils.ts extractSafeHeaders without
a forward list: the loop runs over the allow-list itself, so no membership
test is needed. -/
def defaultStep (reqHeaders : HeadersMap) (hs : HeadersMap) (headerName : List Char) :
    HeadersMap :=
  match headersGet reqHeaders headerName with
  | some v => if v.isEmpty then hs else headersSet hs headerName v
  | none => hs

/-- Embedding of utils.ts extractSafeHeaders: with a forward list, copy the
names that are in the fixed allow-list (case-insensitively) and carry a
truthy inbound value; without one, copy every allow-listed name with a
truthy inbound value. -/
def extractSafeHeaders (reqHeaders : HeadersMap)
    (forwardHeaders : Option (List (List Char))) : HeadersMap :=
  match forwardHeaders with
  | some fw => List.foldl (forwardStep reqHeaders) [] fw
  | none => List.foldl (defaultStep reqHeaders) [] SAFE_HEADERS

/-- The inbound value the extraction forwards for a name: the header value
when it is carried and truthy, nothing otherwise. -/
def fwdValue (H : HeadersMap) (name : List Char) : Option (List Char) :=
  match headersGet H name with
  | some v => if v.isEmpty then none else some v
  | none => none

/-! ### utils.ts: shouldExcludePath, getOriginalPath -/

/-- An exclusion pattern: a literal substring or a regular-expression
matcher, the latter modelled by its match function. -/
inductive PathPattern where
  | literal (s : List Char)
  | pattern (test : List Char → Bool)

/-- One pattern applied to a path. -/
def pathPatternMatches (pathname : List Char) : PathPattern → Bool
  | .literal s => containsSub s pathname
  | .pattern t => t pathname

/-- types.ts ExcludeOptions. -/
structure ExcludeOptions where
  paths : Option (List PathPattern)
  excludeApiRoutes : Option Bool

/-- The reserved API path marker. -/
def apiMarker : List Char := "/api/".data

/-- Embedding of utils.ts shouldExcludePath: no options means no exclusion;
the API check fires unless excludeApiRoutes is explicitly false; then the
configured patterns are tried in order. -/
def shouldExcludePath (pathname : List Char) (options : Option ExcludeOptions) : Bool :=
  match options with
  | none => false
  | some opts =>
    if opts.excludeApiRoutes ≠ some false ∧ strStarts apiMarker pathname = true then true
    else
      match opts.paths with
      | some ps => ps.any (pathPatternMatches pathname)
      | none => false

/-- The marker suffix. -/
def mdSuffix : List Char := ".md".data

/-- Embedding of utils.ts getOriginalPath: strip a trailing .md marker. -/
def getOriginalPath (pathname : List Char) : List Char :=
  if strEnds mdSuffix pathname then pathname.take (pathname.length - 3)
  else pathname

/-! ### utils.ts: escapeHtmlAttribute and addBaseTag

The JS String.replace is embedded including its replacement-pattern
expansion (GetSubstitution): in a string replacement, a dollar sign
followed by an ampersand inserts the matched text, dollar backtick the
text before the match, dollar apostrophe the text after it, and a doubled
dollar a literal dollar; the regexes in play have no capture groups, so
every other dollar sequence stays literal. -/

/-- Replace every occurrence of a character by a string (the five global
character replaces of escapeHtmlAttribute compose to this). -/
def replaceAllChar (c : Char) (r : List Char) : List Char → List Char
  | [] => []
  | x :: xs => (if x == c then r else [x]) ++ replaceAllChar c r xs

/-- Embedding of utils.ts escapeHtmlAttribute: the five sequential global
replaces for ampersand, angle brackets, double quote and apostrophe. -/
def escapeHtmlAttribute (value : List Char) : List Char :=
  replaceAllChar '\'' ("&#39;".data)
    (replaceAllChar '"' ("&quot;".data)
      (replaceAllChar '>' ("&gt;".data)
        (replaceAllChar '<' ("&lt;".data)
          (replaceAllChar '&' ("&amp;".data) value))))

/-- GetSubstitution for a replacement string under a regex without capture
groups: expand the dollar escapes against the matched text and its
surrounding context. -/
def expandReplacement (matched before after : List Char) : List Char → List Char
  | [] => []
  | '$' :: '$' :: r => '$' :: expandReplacement matched before after r
  | '$' :: '&' :: r => matched ++ expandReplacement matched before after r
  | '$' :: '\x60' :: r => before ++ expandReplacement matched before after r
  | '$' :: '\'' :: r => after ++ expandReplacement matched before after r
  | '$' :: r => '$' :: expandReplacement matched before after r
  | c :: r => c :: expandReplacement matched before after r

/-- Length of the match of the regex <tag[^>]*> (case-insensitive) at the
start of the string, if it matches there: the literal tag opening, then a
greedy run of non-gt characters, then the closing gt. -/
def matchTagAt (tag : List Char) (s : List Char) : Option Nat :=
  if ciStarts ('<' :: tag) s then
    match idxOfChar '>' (s.drop (tag.length + 1)) with
    | some k => some (tag.length + 1 + k + 1)
    | none => none
  else none

/-- Leftmost match of the regex <tag[^>]*> (case-insensitive): position and
length, trying every start position left to right. -/
def findTag (tag : List Char) : List Char → Option (Nat × Nat)
  | [] => none
  | c :: tail =>
    match matchTagAt tag (c :: tail) with
    | some len => some (0, len)
    | none => (findTag tag tail).map (fun p => (p.1 + 1, p.2))

/-- JS String.replace with a <tag[^>]*> regex and a string replacement:
replace the leftmost match after expanding the replacement pattern. -/
def replaceTag (tag : List Char) (html : List Char) (repl : List Char) : List Char :=
  match findTag tag html with
  | none => html
  | some (i, len) =>
    let before := html.take i
    let matched := (html.drop i).take len
    let after := html.drop (i + len)
    before ++ expandReplacement matched before after repl ++ after

/-- Embedding of utils.ts addBaseTag: escape the base URL, then replace an
existing base tag, or insert after the head opening tag, or insert a
synthetic head after the html opening tag, or prepend. -/
def addBaseTag (html baseUrl : List Char) : List Char :=
  let safeBaseUrl := escapeHtmlAttribute baseUrl
  let baseTag := "<base href=\"".data ++ safeBaseUrl ++ "\">".data
  if (findTag ("base".data) html).isSome then
    replaceTag ("base".data) html baseTag
  else if (findTag ("head".data) html).isSome then
    replaceTag ("head".data) html ("$&".data ++ baseTag)
  else if (findTag ("html".data) html).isSome then
    replaceTag ("html".data) html ("$&<head>".data ++ baseTag ++ "</head>".data)
  else baseTag ++ html

/-- The text following the first occurrence of a search string, if any. -/
def afterFirst (needle : List Char) : List Char → Option (List Char)
  | [] => if strStarts needle [] then some [] else none
  | c :: tail =>
    if strStarts needle (c :: tail) then some ((c :: tail).drop needle.length)
    else afterFirst needle tail

/-- The first href attribute value of a document: the text between the
first occurrence of the attribute opener and the next double quote. -/
def hrefAttrValue (s : List Char) : List Char :=
  match afterFirst ("href=\"".data) s with
  | some rest => rest.takeWhile (fun c => !(c == '"'))
  | none => []

/-! ### converter.ts: turndown configuration and convertHtmlToMarkdown

The turndown library is an external capability; it is modelled by a
function parameter from a configuration and a document to the produced
markdown.  The shared default-configured instance behaves exactly like an
instance built from the default configuration. -/

/-- types.ts TurndownOptions: the three documented style fields plus the
pass-through extras. -/
structure TurndownOptions where
  headingStyle : Option (List Char)
  codeBlockStyle : Option (List Char)
  bulletListMarker : Option (List Char)
  rest : List (List Char × List Char)

/-- A fully determined turndown configuration. -/
structure TurndownConfig where
  headingStyle : List Char
  codeBlockStyle : List Char
  bulletListMarker : List Char
  rest : List (List Char × List Char)
deriving DecidableEq

/-- Embedding of converter.ts createTurndownConfig: nullish-coalescing
defaults for the three known fields, extras spread through unchanged. -/
def createTurndownConfig (options : Option TurndownOptions) : TurndownConfig :=
  let o := options.getD ⟨none, none, none, []⟩
  ⟨o.headingStyle.getD ("atx".data), o.codeBlockStyle.getD ("fenced".data),
   o.bulletListMarker.getD ("-".data), o.rest⟩

/-- The configuration of the shared default turndown instance. -/
def defaultTurndownConfig : TurndownConfig :=
  ⟨"atx".data, "fenced".data, "-".data, []⟩

/-- Embedding of converter.ts convertHtmlToMarkdown: add the base tag,
then convert with a freshly configured instance when options are given,
with the shared default instance otherwise. -/
def convertHtmlToMarkdown (turndown : TurndownConfig → List Char → List Char)
    (html baseUrl : List Char) (options : Option TurndownOptions) : List Char :=
  let htmlWithBase := addBaseTag html baseUrl
  match options with
  | some o => turndown (createTurndownConfig (some o)) htmlWithBase
  | none => turndown defaultTurndownConfig htmlWithBase

/-! ### middleware.ts: options, URL resolution, the request handler -/

/-- types.ts CacheOptions. -/
structure CacheOptions where
  enabled : Bool
  maxAge : Option Nat

/-- A response as assembled by the handler: status, body, headers. -/
structure MwResponse where
  status : Nat
  body : List Char
  headers : HeadersMap
deriving DecidableEq

/-- The inbound request: its path and its header map. -/
structure MiddlewareRequest where
  pathname : List Char
  headers : HeadersMap
deriving DecidableEq

/-- types.ts HeadersOptions. -/
structure HeadersOptions where
  forward : Option (List (List Char))
  custom : Option (List (List Char × List Char))

/-- types.ts MarkdownMiddlewareOptions; the error hook receives the thrown
message and the request. -/
structure MarkdownMiddlewareOptions where
  cache : Option CacheOptions
  headers : Option HeadersOptions
  exclude : Option ExcludeOptions
  turndown : Option TurndownOptions
  onError : Option (List Char → MiddlewareRequest → Option MwResponse)
  maxRequestSize : Option Nat
  fetchTimeout : Option Nat

/-- middleware.ts DEFAULT_MAX_REQUEST_SIZE (10 MiB). -/
def DEFAULT_MAX_REQUEST_SIZE : Nat := 10 * 1024 * 1024

/-- middleware.ts DEFAULT_FETCH_TIMEOUT (30 seconds). -/
def DEFAULT_FETCH_TIMEOUT : Nat := 30000

/-- The effective payload ceiling: the JS or-default expression over the
configured maxRequestSize. -/
def effectiveMaxRequestSize (options : Option MarkdownMiddlewareOptions) : Nat :=
  jsOrNat (options.bind MarkdownMiddlewareOptions.maxRequestSize) DEFAULT_MAX_REQUEST_SIZE

/-- The armed fetch deadline: the JS or-default expression over the
configured fetchTimeout. -/
def effectiveFetchTimeout (options : Option MarkdownMiddlewareOptions) : Nat :=
  jsOrNat (options.bind MarkdownMiddlewareOptions.fetchTimeout) DEFAULT_FETCH_TIMEOUT

/-- Models the hostname component the WHATWG URL API yields for an
authority string: a bracketed IPv6 host keeps its brackets, any other
host loses its port and is lower-cased. -/
def urlHostnameOf (hostPort : List Char) : List Char :=
  match hostPort with
  | '[' :: _ =>
    match idxOfChar ']' hostPort with
    | some i => hostPort.take (i + 1)
    | none => hostPort
  | _ => lowerStr (hostPort.takeWhile (fun c => !(c == ':')))

/-- Models the WHATWG URL serialisation at the fragment used here. -/
def urlToString (protocol host path : List Char) : List Char :=
  protocol ++ "://".data ++ host ++ path

/-- The resolved absolute URL, represented by its hostname component and
its serialisation. -/
structure ResolvedUrl where
  hostname : List Char
  href : List Char

/-- Embedding of utils.ts buildAbsoluteUrl: the scheme comes from the
forwarded-proto header when its trimmed lower-cased value is exactly http
or https, defaulting to https; the host from the Host header, defaulting
to localhost. -/
def buildAbsoluteUrl (pathname : List Char) (reqHeaders : HeadersMap) : ResolvedUrl :=
  let forwardedProto := headersGet reqHeaders ("x-forwarded-proto".data)
  let protocol :=
    match forwardedProto with
    | some fp =>
      if fp.isEmpty then "https".data
      else
        let normalizedProto := lowerStr (trimStr fp)
        if normalizedProto = "http".data ∨ normalizedProto = "https".data then
          normalizedProto
        else "https".data
    | none => "https".data
  let host := jsOrStr (headersGet reqHeaders hostHeaderName) ("localhost".data)
  ⟨urlHostnameOf host, urlToString protocol host pathname⟩

/-- The validation the handler performs on the resolved URL of a request. -/
def requestValidation (request : MiddlewareRequest) : RequestValidationResult :=
  validateInternalRequest
    (buildAbsoluteUrl (getOriginalPath request.pathname) request.headers).hostname
    request.headers

/-- The serialised URL the handler fetches for a request. -/
def resolvedUrlString (request : MiddlewareRequest) : List Char :=
  (buildAbsoluteUrl (getOriginalPath request.pathname) request.headers).href

/-- The upstream response descriptor the fetch can deliver. -/
structure UpstreamResponse where
  status : Nat
  statusText : List Char
  contentType : Option (List Char)
  contentLength : Option (List Char)
  body : List Char
deriving DecidableEq

/-- The fetch ok flag: status in the 200 range. -/
def respOk (r : UpstreamResponse) : Bool := decide (200 ≤ r.status ∧ r.status ≤ 299)

/-- How one fetch call can end: a response, an abort by the armed timeout,
a thrown Error carrying a message, or a thrown non-Error value. -/
inductive FetchOutcome where
  | success (resp : UpstreamResponse)
  | abortError
  | failure (message : List Char)
  | failureNonError

/-- Escaping of one character as JSON.stringify performs it inside a
string value. -/
def jsonEscapeChar (c : Char) : List Char :=
  if c == '"' then ['\\', '"']
  else if c == '\\' then ['\\', '\\']
  else if c == '\n' then ['\\', 'n']
  else if c == '\r' then ['\\', 'r']
  else if c == '\t' then ['\\', 't']
  else if c == '\x08' then ['\\', 'b']
  else if c == '\x0c' then ['\\', 'f']
  else if c.toNat < 32 then
    '\\' :: 'u' :: '0' :: '0' :: [Nat.digitChar (c.toNat / 16), Nat.digitChar (c.toNat % 16)]
  else [c]

/-- The body JSON.stringify produces for an object with one error field. -/
def jsonStringifyError (msg : List Char) : List Char :=
  "\x7b\"error\":\"".data ++ (msg.flatMap jsonEscapeChar) ++ "\"\x7d".data

/-- The content-type entry of the JSON error responses. -/
def jsonCT : HeadersMap := [("content-type".data, "application/json".data)]

/-- The content-type gate of the handler: the header must be truthy and
contain one of the two accepted media types (the source tests the negated
condition). -/
def contentTypeOk (ct : Option (List Char)) : Bool :=
  jsTruthyStr ct &&
    (containsSub ("text/html".data) (ct.getD []) ||
     containsSub ("application/xhtml+xml".data) (ct.getD []))

/-- The Content-Length gate of the handler: the header is consulted only
when carried and truthy, and rejects only when it parses to a number
above the ceiling. -/
def tooLargeByHeader (resp : UpstreamResponse)
    (options : Option MarkdownMiddlewareOptions) : Bool :=
  match resp.contentLength with
  | some contentLength =>
    if contentLength.isEmpty then false
    else
      match jsParseInt contentLength with
      | some size => decide ((effectiveMaxRequestSize options : Int) < size)
      | none => false
  | none => false

/-- The cache directive emitted for a max-age. -/
def cacheControlValue (maxAge : Nat) : List Char :=
  "public, max-age=".data ++ (Nat.repr maxAge).data ++ ", s-maxage=".data ++
    (Nat.repr maxAge).data

/-- The response headers the handler assembles on success: the markdown
content type, the cache directive (or-defaulted max-age when the cache is
enabled, no-store otherwise), then the custom headers. -/
def successHeaders (options : Option MarkdownMiddlewareOptions) : HeadersMap :=
  let responseHeaders := headersSet [] ("Content-Type".data)
    ("text/markdown; charset=utf-8".data)
  let responseHeaders :=
    match options.bind MarkdownMiddlewareOptions.cache with
    | some c =>
      if c.enabled then
        headersSet responseHeaders ("Cache-Control".data)
          (cacheControlValue (jsOrNat c.maxAge 3600))
      else
        headersSet responseHeaders ("Cache-Control".data)
          ("no-cache, no-store, must-revalidate".data)
    | none =>
      headersSet responseHeaders ("Cache-Control".data)
        ("no-cache, no-store, must-revalidate".data)
  match options.bind MarkdownMiddlewareOptions.headers with
  | some ho =>
    match ho.custom with
    | some entries =>
      List.foldl (fun acc kv => headersSet acc kv.1 kv.2) responseHeaders entries
    | none => responseHeaders
  | none => responseHeaders

/-- The response assembly of middleware.ts on a delivered upstream
response: the 404 passthrough, the upstream error passthrough with the
status text, the content-type gate, the Content-Length gate, the realized
body length gate, and finally conversion and header assembly. -/
def handleFetchSuccess (turndown : TurndownConfig → List Char → List Char)
    (resp : UpstreamResponse) (urlString : List Char)
    (options : Option MarkdownMiddlewareOptions) : MwResponse :=
  if resp.status = 404 then ⟨404, "Not Found".data, []⟩
  else if respOk resp = false then
    ⟨resp.status, "Failed to fetch: ".data ++ resp.statusText, []⟩
  else if contentTypeOk resp.contentType = false then
    ⟨415, "Content-Type must be text/html or application/xhtml+xml".data, []⟩
  else if tooLargeByHeader resp options then
    ⟨413, "Request Entity Too Large".data, []⟩
  else if effectiveMaxRequestSize options < resp.body.length then
    ⟨413, "Request Entity Too Large".data, []⟩
  else
    ⟨200,
     convertHtmlToMarkdown turndown resp.body urlString
       (options.bind MarkdownMiddlewareOptions.turndown),
     successHeaders options⟩

/-- Embedding of middleware.ts handleMarkdownRequest.  The external world
is a function from the fetched URL, the outbound headers and the armed
timeout to a fetch outcome; null results are the pass-through case.
Mirrors the source order: marker suffix test, exclusion test, URL
resolution, SSRF validation, safe header extraction, fetch, response
gating; an aborted fetch maps to 504, a thrown Error reaches the caller
error hook before the default 500 JSON mapping, a thrown non-Error value
maps to the plain 500. -/
def handleMarkdownRequest (turndown : TurndownConfig → List Char → List Char)
    (fetchBehavior : List Char → HeadersMap → Nat → FetchOutcome)
    (request : MiddlewareRequest)
    (options : Option MarkdownMiddlewareOptions) : Option MwResponse :=
  if strEnds mdSuffix request.pathname = false then none
  else if shouldExcludePath request.pathname
      (options.bind MarkdownMiddlewareOptions.exclude) then none
  else
    let validation := requestValidation request
    if validation.isValid = false then
      some ⟨403, jsonStringifyError (validation.error.getD []), jsonCT⟩
    else
      let outHeaders := extractSafeHeaders request.headers
        (options.bind (fun o => o.headers.bind HeadersOptions.forward))
      match fetchBehavior (resolvedUrlString request) outHeaders
          (effectiveFetchTimeout options) with
      | .success resp =>
        some (handleFetchSuccess turndown resp (resolvedUrlString request) options)
      | .abortError => some ⟨504, "Request Timeout".data, []⟩
      | .failure message =>
        match options.bind MarkdownMiddlewareOptions.onError with
        | some hook =>
          match hook message request with
          | some r => some r
          | none => some ⟨500, jsonStringifyError message, jsonCT⟩
        | none => some ⟨500, jsonStringifyError message, jsonCT⟩
      | .failureNonError => some ⟨500, "Internal Server Error".data, []⟩

/-- The generic fixed error bodies of the default mapping. -/
def genericErrorBodies : List (List Char) :=
  ["Not Found".data, "Content-Type must be text/html or application/xhtml+xml".data,
   "Request Entity Too Large".data, "Request Timeout".data,
   "Internal Server Error".data]

/-! ### Concrete fixtures used by witnesses and counterexamples -/

/-- A conversion capability that returns the document unchanged. -/
def convIdentity : TurndownConfig → List Char → List Char := fun _ h => h

/-- A request that passes the marker, exclusion and SSRF stages. -/
def gateRequest : MiddlewareRequest :=
  ⟨"/test.md".data, [(hostHeaderName, "localhost".data)]⟩

/-- A marker request under the reserved API prefix. -/
def apiRequest : MiddlewareRequest :=
  ⟨"/api/test.md".data, [(hostHeaderName, "localhost".data)]⟩

/-- A marker request whose Host header is a bracketed IPv6 authority: the
resolved URL keeps the brackets while the validation strips them, so the
SSRF validation rejects it. -/
def bracketHostRequest : MiddlewareRequest :=
  ⟨"/test.md".data, [(hostHeaderName, "[::1]:3000".data)]⟩

/-- A 200 text/html upstream response without a Content-Length header. -/
def htmlResp (b : List Char) : UpstreamResponse :=
  ⟨200, "OK".data, some ("text/html".data), none, b⟩

/-- A 404 upstream response. -/
def resp404 : UpstreamResponse := ⟨404, "Not Found".data, none, none, []⟩

/-- Options with an exclusion object carrying no explicit fields. -/
def optsExcl : MarkdownMiddlewareOptions :=
  ⟨none, none, some ⟨none, none⟩, none, none, none, none⟩

/-- Options that set every numeric field to an explicit zero and enable
the cache with an explicit zero max-age. -/
def optsZero : MarkdownMiddlewareOptions :=
  ⟨some ⟨true, some 0⟩, none, none, none, none, some 0, some 0⟩

/-- Options with a one-byte payload ceiling. -/
def optsOne : MarkdownMiddlewareOptions :=
  ⟨none, none, none, none, none, some 1, none⟩

/-- A distinctive response returned by the error hook fixture. -/
def hookResponse : MwResponse := ⟨418, "hooked".data, []⟩

/-- Options whose error hook always answers with the distinctive
response. -/
def optsHook : MarkdownMiddlewareOptions :=
  ⟨none, none, none, none, some (fun _ _ => some hookResponse), none, none⟩

/-- An inbound header map carrying an empty-valued safe header, a safe
header and an unsafe header. -/
def inboundFixture : HeadersMap :=
  [("accept".data, []), ("user-agent".data, "UA".data),
   ("x-api-key".data, "secret".data)]

/-! ### Helper lemmas about the headers model and the extraction loop -/

theorem toNat_ofNat_valid (n : Nat) (h : n.isValidChar) : (Char.ofNat n).toNat = n := by
  simp [Char.ofNat, h, Char.ofNatAux, Char.toNat, BitVec.ofNatLt, UInt32.toNat]

theorem lowerChar_idem (c : Char) : lowerChar (lowerChar c) = lowerChar c := by
  unfold lowerChar
  split
  · rename_i h
    have hvalid : (c.toNat + 32).isValidChar := by
      unfold Nat.isValidChar
      omega
    rw [toNat_ofNat_valid _ hvalid]
    have hno : ¬(65 ≤ c.toNat + 32 ∧ c.toNat + 32 ≤ 90) := by omega
    rw [if_neg hno]
  · rfl

theorem lowerStr_idem (s : List Char) : lowerStr (lowerStr s) = lowerStr s := by
  induction s with
  | nil => rfl
  | cons c cs ih => simp [lowerStr, lowerChar_idem] at ih ⊢

theorem headersGet_nil (q : List Char) : headersGet [] q = none := rfl

theorem headersGet_cons (p : List Char × List Char) (hs : HeadersMap) (q : List Char) :
    headersGet (p :: hs) q =
      if lowerStr p.1 = lowerStr q then some p.2 else headersGet hs q := by
  unfold headersGet
  rcases h : (lowerStr p.1 == lowerStr q) with _ | _
  · rw [List.find?_cons_of_neg _ (by simp [h]), if_neg (by simpa using h)]
  · rw [List.find?_cons_of_pos _ (by simp [h]), if_pos (by simpa using h)]

theorem headersGet_name_congr (H : HeadersMap) {a b : List Char}
    (h : lowerStr a = lowerStr b) : headersGet H a = headersGet H b := by
  unfold headersGet
  rw [h]

theorem headersGet_setEntry (hs : HeadersMap) (ln v q : List Char)
    (hln : lowerStr ln = ln) (hnorm : ∀ p ∈ hs, lowerStr p.1 = p.1) :
    headersGet (setEntry hs ln v) q =
      if ln = lowerStr q then some v else headersGet hs q := by
  induction hs with
  | nil =>
    unfold setEntry
    rw [headersGet_cons]
    simp only [headersGet_nil]
    by_cases h : ln = lowerStr q
    · rw [if_pos (by rw [hln, h]), if_pos h]
    · rw [if_neg (by rw [hln]; exact h), if_neg h]
  | cons p rest ih =>
    have hp : lowerStr p.1 = p.1 := hnorm p (List.mem_cons_self p rest)
    have ihr := ih (fun x hx => hnorm x (List.mem_cons_of_mem p hx))
    unfold setEntry
    by_cases hpe : p.1 = ln
    · rw [if_pos (by simp [hpe])]
      rw [headersGet_cons, headersGet_cons]
      simp only []
      by_cases h : ln = lowerStr q
      · rw [if_pos (by rw [hln, h]), if_pos h]
      · rw [if_neg (by rw [hln]; exact h), if_neg h, if_neg (by rw [hp, hpe]; exact h)]
    · rw [if_neg (by simp [hpe])]
      rw [headersGet_cons, headersGet_cons]
      by_cases hq : lowerStr p.1 = lowerStr q
      · rw [if_pos hq, if_pos hq]
        have : ln ≠ lowerStr q := by
          rw [← hq, hp]
          exact fun he => hpe he.symm
        rw [if_neg this]
      · rw [if_neg hq, if_neg hq, ihr]

theorem mem_setEntry {hs : HeadersMap} {ln v : List Char} {p : List Char × List Char}
    (h : p ∈ setEntry hs ln v) : p ∈ hs ∨ p = (ln, v) := by
  induction hs with
  | nil =>
    unfold setEntry at h
    simp at h
    exact Or.inr h
  | cons x rest ih =>
    unfold setEntry at h
    by_cases hx : x.1 = ln
    · rw [if_pos (by simp [hx])] at h
      rcases List.mem_cons.mp h with h1 | h2
      · exact Or.inr h1
      · exact Or.inl (List.mem_cons_of_mem x h2)
    · rw [if_neg (by simp [hx])] at h
      rcases List.mem_cons.mp h with h1 | h2
      · exact Or.inl (h1 ▸ List.mem_cons_self x rest)
      · rcases ih h2 with h3 | h4
        · exact Or.inl (List.mem_cons_of_mem x h3)
        · exact Or.inr h4

theorem fwdValue_name_congr (H : HeadersMap) {a b : List Char}
    (h : lowerStr a = lowerStr b) : fwdValue H a = fwdValue H b := by
  unfold fwdValue
  rw [headersGet_name_congr H h]

theorem safe_self_lower : ∀ s ∈ SAFE_HEADERS, lowerStr s = s := by decide

theorem safe_mem_of_contains {s : List Char} (h : SAFE_HEADERS.contains s = true) :
    s ∈ SAFE_HEADERS := by
  simpa using h

theorem safe_contains_of_mem {s : List Char} (h : s ∈ SAFE_HEADERS) :
    SAFE_HEADERS.contains s = true := by
  simpa using h

theorem forwardStep_of_get_none {H : HeadersMap} {n : List Char} (hs : HeadersMap)
    (hv : headersGet H n = none) : forwardStep H hs n = hs := by
  simp only [forwardStep, hv]
  split <;> rfl

theorem forwardStep_of_get_empty {H : HeadersMap} {n v : List Char} (hs : HeadersMap)
    (hv : headersGet H n = some v) (he : v.isEmpty = true) :
    forwardStep H hs n = hs := by
  simp only [forwardStep, hv, he, if_true]
  split <;> rfl

theorem forwardStep_of_not_safe {H : HeadersMap} {n : List Char} (hs : HeadersMap)
    (hc : ¬ SAFE_HEADERS.contains (lowerStr n) = true) : forwardStep H hs n = hs := by
  simp only [forwardStep]
  rw [if_neg hc]

theorem forwardStep_of_set {H : HeadersMap} {n v : List Char} (hs : HeadersMap)
    (hv : headersGet H n = some v) (he : ¬ v.isEmpty = true)
    (hc : SAFE_HEADERS.contains (lowerStr n) = true) :
    forwardStep H hs n = headersSet hs n v := by
  simp only [forwardStep, hv]
  rw [if_pos hc, if_neg he]

theorem forwardStep_keys {H hs : HeadersMap} {n : List Char}
    (h : ∀ p ∈ hs, p.1 ∈ SAFE_HEADERS) :
    ∀ p ∈ forwardStep H hs n, p.1 ∈ SAFE_HEADERS := by
  intro p hp
  by_cases hc : SAFE_HEADERS.contains (lowerStr n) = true
  · cases hv : headersGet H n with
    | none =>
      rw [forwardStep_of_get_none hs hv] at hp
      exact h p hp
    | some v =>
      by_cases he : v.isEmpty = true
      · rw [forwardStep_of_get_empty hs hv he] at hp
        exact h p hp
      · rw [forwardStep_of_set hs hv he hc] at hp
        unfold headersSet at hp
        rcases mem_setEntry hp with h1 | h2
        · exact h p h1
        · rw [h2]
          exact safe_mem_of_contains hc
  · rw [forwardStep_of_not_safe hs hc] at hp
    exact h p hp

theorem headersGet_forwardStep (H hs : HeadersMap) (n q : List Char)
    (hkeys : ∀ p ∈ hs, p.1 ∈ SAFE_HEADERS) :
    headersGet (forwardStep H hs n) q =
      if lowerStr n = lowerStr q ∧ lowerStr q ∈ SAFE_HEADERS ∧
          (fwdValue H q).isSome = true then fwdValue H q
      else headersGet hs q := by
  have hnorm : ∀ p ∈ hs, lowerStr p.1 = p.1 := fun p hp => safe_self_lower p.1 (hkeys p hp)
  by_cases hc : SAFE_HEADERS.contains (lowerStr n) = true
  · cases hv : headersGet H n with
    | none =>
      rw [forwardStep_of_get_none hs hv]
      by_cases hm : lowerStr n = lowerStr q
      · have hfq : fwdValue H q = none := by
          rw [← fwdValue_name_congr H hm]
          unfold fwdValue
          rw [hv]
        rw [if_neg (fun hh => by rw [hfq] at hh; exact absurd hh.2.2 (by simp))]
      · rw [if_neg (fun hh => hm hh.1)]
    | some v =>
      by_cases he : v.isEmpty = true
      · rw [forwardStep_of_get_empty hs hv he]
        by_cases hm : lowerStr n = lowerStr q
        · have hfq : fwdValue H q = none := by
            rw [← fwdValue_name_congr H hm]
            simp [fwdValue, hv, he]
          rw [if_neg (fun hh => by rw [hfq] at hh; exact absurd hh.2.2 (by simp))]
        · rw [if_neg (fun hh => hm hh.1)]
      · rw [forwardStep_of_set hs hv he hc]
        unfold headersSet
        rw [headersGet_setEntry hs (lowerStr n) v q (lowerStr_idem n) hnorm]
        by_cases hm : lowerStr n = lowerStr q
        · have hfq : fwdValue H q = some v := by
            rw [← fwdValue_name_congr H hm]
            simp [fwdValue, hv, he]
          have hseq : lowerStr q ∈ SAFE_HEADERS := by
            rw [← hm]
            exact safe_mem_of_contains hc
          rw [if_pos hm, if_pos ⟨hm, hseq, by rw [hfq]; rfl⟩, hfq]
        · rw [if_neg hm, if_neg (fun hh => hm hh.1)]
  · rw [forwardStep_of_not_safe hs hc]
    by_cases hm : lowerStr n = lowerStr q
    · rw [if_neg (fun hh => by
        have hsq := hh.2.1
        rw [← hm] at hsq
        exact hc (safe_contains_of_mem hsq))]
    · rw [if_neg (fun hh => hm hh.1)]

theorem headersGet_foldl_forwardStep (H : HeadersMap) (q : List Char) :
    ∀ (l : List (List Char)) (hs : HeadersMap), (∀ p ∈ hs, p.1 ∈ SAFE_HEADERS) →
      headersGet (List.foldl (forwardStep H) hs l) q =
        if (∃ n ∈ l, lowerStr n = lowerStr q) ∧ lowerStr q ∈ SAFE_HEADERS ∧
            (fwdValue H q).isSome = true then fwdValue H q
        else headersGet hs q := by
  intro l
  induction l with
  | nil =>
    intro hs hkeys
    rw [List.foldl_nil, if_neg (by simp)]
  | cons n l' ih =>
    intro hs hkeys
    rw [List.foldl_cons, ih (forwardStep H hs n) (forwardStep_keys hkeys),
      headersGet_forwardStep H hs n q hkeys]
    by_cases hCS : lowerStr q ∈ SAFE_HEADERS ∧ (fwdValue H q).isSome = true
    · by_cases hE : ∃ m ∈ l', lowerStr m = lowerStr q
      · rcases hE with ⟨m, hm, hmq⟩
        rw [if_pos ⟨⟨m, hm, hmq⟩, hCS.1, hCS.2⟩,
          if_pos ⟨⟨m, List.mem_cons_of_mem n hm, hmq⟩, hCS.1, hCS.2⟩]
      · rw [if_neg (fun hh => hE hh.1)]
        by_cases hM : lowerStr n = lowerStr q
        · rw [if_pos ⟨hM, hCS.1, hCS.2⟩,
            if_pos ⟨⟨n, List.mem_cons_self n l', hM⟩, hCS.1, hCS.2⟩]
        · rw [if_neg (fun hh => hM hh.1), if_neg (fun hh => by
            rcases hh.1 with ⟨m, hm, hmq⟩
            rcases List.mem_cons.mp hm with h1 | h2
            · exact hM (h1 ▸ hmq)
            · exact hE ⟨m, h2, hmq⟩)]
    · rw [if_neg (fun hh => hCS ⟨hh.2.1, hh.2.2⟩), if_neg (fun hh => hCS ⟨hh.2.1, hh.2.2⟩),
        if_neg (fun hh => hCS ⟨hh.2.1, hh.2.2⟩)]

theorem foldl_forwardStep_keys (H : HeadersMap) :
    ∀ (l : List (List Char)) (hs : HeadersMap), (∀ p ∈ hs, p.1 ∈ SAFE_HEADERS) →
      ∀ p ∈ List.foldl (forwardStep H) hs l, p.1 ∈ SAFE_HEADERS := by
  intro l
  induction l with
  | nil =>
    intro hs hkeys p hp
    rw [List.foldl_nil] at hp
    exact hkeys p hp
  | cons n l' ih =>
    intro hs hkeys p hp
    rw [List.foldl_cons] at hp
    exact ih (forwardStep H hs n) (forwardStep_keys hkeys) p hp

theorem defaultStep_eq_forwardStep (H : HeadersMap) :
    ∀ (hs : HeadersMap) (n : List Char), n ∈ SAFE_HEADERS →
      defaultStep H hs n = forwardStep H hs n := by
  intro hs n hn
  have hl : lowerStr n = n := safe_self_lower n hn
  have hc : SAFE_HEADERS.contains (lowerStr n) = true := by
    rw [hl]
    exact safe_contains_of_mem hn
  unfold defaultStep forwardStep
  rw [if_pos hc]

theorem foldl_congr_mem {α β : Type} (f g : β → α → β) :
    ∀ (l : List α) (a : β), (∀ b x, x ∈ l → f b x = g b x) →
      List.foldl f a l = List.foldl g a l := by
  intro l
  induction l with
  | nil => intro a _; rfl
  | cons x xs ih =>
    intro a h
    rw [List.foldl_cons, List.foldl_cons, h a x (List.mem_cons_self x xs)]
    exact ih _ (fun b y hy => h b y (List.mem_cons_of_mem x hy))

theorem extractSafeHeaders_none_eq_some_safe (H : HeadersMap) :
    extractSafeHeaders H none = extractSafeHeaders H (some SAFE_HEADERS) := by
  unfold extractSafeHeaders
  exact foldl_congr_mem _ _ SAFE_HEADERS [] (fun b x hx => defaultStep_eq_forwardStep H b x hx)

theorem headersGet_headersDelete (H : HeadersMap) (name q : List Char) :
    headersGet (headersDelete H name) q =
      if lowerStr q = lowerStr name then none else headersGet H q := by
  induction H with
  | nil =>
    simp only [headersDelete, List.filter_nil, headersGet_nil]
    split <;> rfl
  | cons p rest ih =>
    by_cases hp : lowerStr p.1 = lowerStr name
    · have hfilter : headersDelete (p :: rest) name = headersDelete rest name := by
        simp only [headersDelete, List.filter_cons]
        rw [if_neg (by simp [hp])]
      rw [hfilter, ih]
      by_cases hq : lowerStr q = lowerStr name
      · rw [if_pos hq, if_pos hq]
      · rw [if_neg hq, if_neg hq, headersGet_cons,
          if_neg (fun hh => hq (by rw [← hh]; exact hp))]
    · have hfilter : headersDelete (p :: rest) name = p :: headersDelete rest name := by
        simp only [headersDelete, List.filter_cons]
        rw [if_pos (by simp [hp])]
      rw [hfilter, headersGet_cons, headersGet_cons]
      by_cases hpq : lowerStr p.1 = lowerStr q
      · rw [if_pos hpq, if_pos hpq]
        by_cases hq : lowerStr q = lowerStr name
        · exact absurd (hpq.trans hq) hp
        · rw [if_neg hq]
      · rw [if_neg hpq, if_neg hpq, ih]

theorem forwardStep_delete (H : HeadersMap) (name : List Char)
    (hname : headersGet H name = some []) :
    ∀ (hs : HeadersMap) (n : List Char),
      forwardStep (headersDelete H name) hs n = forwardStep H hs n := by
  intro hs n
  by_cases hm : lowerStr n = lowerStr name
  · have h1 : headersGet H n = some [] := by
      rw [headersGet_name_congr H hm]
      exact hname
    have h2 : headersGet (headersDelete H name) n = none := by
      rw [headersGet_headersDelete, if_pos hm]
    rw [forwardStep_of_get_none hs h2, forwardStep_of_get_empty hs h1 rfl]
  · have h2 : headersGet (headersDelete H name) n = headersGet H n := by
      rw [headersGet_headersDelete, if_neg hm]
    unfold forwardStep
    rw [h2]

theorem extract_delete (H : HeadersMap) (name : List Char)
    (fw : Option (List (List Char))) (hname : headersGet H name = some []) :
    extractSafeHeaders (headersDelete H name) fw = extractSafeHeaders H fw := by
  cases fw with
  | some l =>
    unfold extractSafeHeaders
    exact foldl_congr_mem _ _ l [] (fun b x _ => forwardStep_delete H name hname b x)
  | none =>
    rw [extractSafeHeaders_none_eq_some_safe (headersDelete H name),
      extractSafeHeaders_none_eq_some_safe H]
    unfold extractSafeHeaders
    exact foldl_congr_mem _ _ SAFE_HEADERS [] (fun b x _ => forwardStep_delete H name hname b x)

theorem extract_get_of_empty (H : HeadersMap) (name : List Char)
    (fw : Option (List (List Char))) (hname : headersGet H name = some []) :
    headersGet (extractSafeHeaders H fw) name = none := by
  have hfv : fwdValue H name = none := by simp [fwdValue, hname]
  have main : ∀ l : List (List Char),
      headersGet (List.foldl (forwardStep H) [] l) name = none := by
    intro l
    rw [headersGet_foldl_forwardStep H name l [] (by simp),
      if_neg (fun hh => by rw [hfv] at hh; exact absurd hh.2.2 (by simp))]
    rfl
  cases fw with
  | some l => exact main l
  | none =>
    rw [extractSafeHeaders_none_eq_some_safe]
    exact main SAFE_HEADERS

/-! ### Claim C1: conformance of validateInternalRequest to the SSRF
reference definition -/

/-- Claim C1 (counterexample): a request that carries a Host header with an
empty value is rejected by the code with the Missing Host message, while
the reference definition of the claim treats the header as carried and
accepts the localhost target; so the code does not conform to the
reference definition as stated. -/
theorem validateInternalRequest_ne_ssrfRef_on_empty_host :
    validateInternalRequest ("localhost".data) [(hostHeaderName, [])] ≠
      ssrfRef ("localhost".data) [(hostHeaderName, [])] ∧
    validateInternalRequest ("localhost".data) [(hostHeaderName, [])] =
      ⟨false, some missingHostMsg⟩ ∧
    ssrfRef ("localhost".data) [(hostHeaderName, [])] = ⟨true, none⟩ := by
  refine ⟨?_, ?_, ?_⟩ <;> decide

/-- Claim C1 (amended): validateInternalRequest conforms to the SSRF
reference definition once a Host header carried with an empty value is
treated like an absent one; everything else is exactly as the claim
states it. -/
theorem validateInternalRequest_eq_ssrfRefAmended :
    ∀ (h : List Char) (H : HeadersMap),
      validateInternalRequest h H = ssrfRefAmended h H := by
  intro h H
  unfold validateInternalRequest ssrfRefAmended stripHostPort
  cases headersGet H hostHeaderName with
  | none => rfl
  | some requestHost =>
    simp only [List.mem_cons, List.mem_singleton, List.not_mem_nil, or_false]

/-! ### Claim C7: escaping of the inserted base URL -/

/-- Claim C7 (code bug): on the document with an existing base tag and the
base URL dollar-ampersand, the escaped URL contains the dollar-ampersand
replacement pattern, String.replace expands it to the matched base tag,
and the produced href attribute contains unescaped angle brackets. -/
theorem addBaseTag_dollar_injection_unescaped_attribute :
    addBaseTag ("<base x>".data) ("$&".data) =
      "<base href=\"<base x>amp;\">".data ∧
    '<' ∈ hrefAttrValue (addBaseTag ("<base x>".data) ("$&".data)) ∧
    '>' ∈ hrefAttrValue (addBaseTag ("<base x>".data) ("$&".data)) ∧
    '&' ∈ "$&".data := by
  refine ⟨?_, ?_, ?_, ?_⟩ <;> decide

/-! ### Claim C3: default exclusion of API routes -/

/-- Claim C3 (counterexample): with no options at all, a marker request
under the reserved API prefix is processed rather than passed through;
the exclusion check returns false when no exclusion object is supplied,
so the claim fails for the default configuration. -/
theorem handleMarkdownRequest_processes_api_path_without_options :
    strEnds mdSuffix apiRequest.pathname = true ∧
    strStarts apiMarker apiRequest.pathname = true ∧
    (handleMarkdownRequest convIdentity (fun _ _ _ => .success (htmlResp ("a".data)))
        apiRequest none).map MwResponse.status = some 200 := by
  refine ⟨?_, ?_, ?_⟩ <;> decide

/-- Claim C3 (amended): whenever an exclusion options object is supplied
and its excludeApiRoutes field is not explicitly false, every request
whose path begins with the reserved API prefix is passed through without
fetching; with no exclusion object the API exclusion does not apply. -/
theorem handleMarkdownRequest_excludes_api_when_exclude_supplied :
    ∀ (t : TurndownConfig → List Char → List Char)
      (fb : List Char → HeadersMap → Nat → FetchOutcome)
      (req : MiddlewareRequest) (opts : Option MarkdownMiddlewareOptions)
      (e : ExcludeOptions),
      opts.bind MarkdownMiddlewareOptions.exclude = some e →
      e.excludeApiRoutes ≠ some false →
      strStarts apiMarker req.pathname = true →
      handleMarkdownRequest t fb req opts = none := by
  intro t fb req opts e he hne hst
  have hex : shouldExcludePath req.pathname (some e) = true := by
    unfold shouldExcludePath
    simp [hne, hst]
  unfold handleMarkdownRequest
  rw [he, hex]
  split <;> simp

/-- Witness for the amended claim C3 at a concrete input. -/
theorem handleMarkdownRequest_excludes_api_when_exclude_supplied_witness :
    handleMarkdownRequest convIdentity (fun _ _ _ => FetchOutcome.abortError)
      apiRequest (some optsExcl) = none :=
  handleMarkdownRequest_excludes_api_when_exclude_supplied convIdentity
    (fun _ _ _ => FetchOutcome.abortError) apiRequest (some optsExcl)
    ⟨none, none⟩ rfl (by decide) (by decide)

/-! ### Claim C5: defaulting of explicitly zero numeric options -/

/-- Claim C5 (counterexample): the numeric fields are defaulted with the
JS logical-or, so an explicit zero fetchTimeout, maxRequestSize and cache
max-age are all replaced by their defaults: the armed timeout is 30000,
the payload ceiling is the 10 MiB default (a one-byte body passes where a
zero ceiling would reject it), and the emitted cache directive carries
3600. -/
theorem numeric_zero_options_overridden_by_defaults :
    effectiveFetchTimeout (some optsZero) = DEFAULT_FETCH_TIMEOUT ∧
    effectiveMaxRequestSize (some optsZero) = DEFAULT_MAX_REQUEST_SIZE ∧
    (handleMarkdownRequest convIdentity (fun _ _ _ => .success (htmlResp ("a".data)))
        gateRequest (some optsZero)).map MwResponse.status = some 200 ∧
    (handleMarkdownRequest convIdentity (fun _ _ _ => .success (htmlResp ("a".data)))
        gateRequest (some optsZero)).bind
      (fun r => headersGet r.headers ("cache-control".data)) =
      some (cacheControlValue 3600) := by
  refine ⟨?_, ?_, ?_, ?_⟩ <;> decide

/-! ### Claim C6: payload size boundary -/

/-- Claim C6 (counterexample): with maxRequestSize configured as 0, a
payload of size 0 + 1 is accepted with status 200 instead of failing with
413, because the logical-or defaulting replaces the zero ceiling by the
10 MiB default. -/
theorem payload_limit_zero_not_enforced :
    optsZero.maxRequestSize = some 0 ∧
    (htmlResp ("a".data)).body.length = 0 + 1 ∧
    (handleMarkdownRequest convIdentity (fun _ _ _ => .success (htmlResp ("a".data)))
        gateRequest (some optsZero)).map MwResponse.status = some 200 := by
  refine ⟨?_, ?_, ?_⟩ <;> decide

/-! ### Claim C8: the error-override hook -/

/-- Claim C8 (counterexample): a NotFound failure is mapped to the default
404 response without consulting the supplied error hook, whose distinct
response is not used. -/
theorem onError_not_invoked_for_not_found :
    handleMarkdownRequest convIdentity (fun _ _ _ => .success resp404)
      gateRequest (some optsHook) = some ⟨404, "Not Found".data, []⟩ ∧
    hookResponse ≠ ⟨404, "Not Found".data, []⟩ := by
  refine ⟨?_, ?_⟩ <;> decide

/-! ### Claim C4: error body contents -/

/-- Claim C4 (counterexample): the default Internal mapping serialises the
caught exception message into the 500 JSON body, so internal error text
appears verbatim. -/
theorem internal_error_body_echoes_exception_message :
    handleMarkdownRequest convIdentity (fun _ _ _ => .failure ("boom".data))
      gateRequest none =
      some ⟨500, jsonStringifyError ("boom".data), jsonCT⟩ ∧
    containsSub ("boom".data) (jsonStringifyError ("boom".data)) = true := by
  refine ⟨?_, ?_⟩ <;> decide

/-! ### Claim C2: the outbound header allow-list and the forward-list
intersection -/

/-- Claim C2 (counterexample): a header that is in the intersection of the
forward list and the allow-list and is carried by the inbound request
with an empty value is not copied, so the intersection is not copied
exactly as the claim states it. -/
theorem extractSafeHeaders_drops_present_empty_header :
    headersGet [(("accept".data : List Char), ([] : List Char))] ("accept".data) =
      some [] ∧
    extractSafeHeaders [(("accept".data : List Char), ([] : List Char))]
      (some ["accept".data]) = [] ∧
    "accept".data ∈ SAFE_HEADERS := by
  refine ⟨?_, ?_, ?_⟩ <;> decide

/-- Claim C2 (amended): every outbound entry is named by the fixed six
element allow-list (so nothing outside it ever appears, under any forward
configuration), and with a forward list the outbound value of a name is
exactly the inbound value when the name is in the intersection of the
forward list and the allow-list (case-insensitively) and the inbound
value is non-empty, and nothing otherwise. -/
theorem extractSafeHeaders_allowlist_intersection :
    (∀ (H : HeadersMap) (fw : Option (List (List Char))) (p : List Char × List Char),
      p ∈ extractSafeHeaders H fw → p.1 ∈ SAFE_HEADERS) ∧
    (∀ (H : HeadersMap) (l : List (List Char)) (q : List Char),
      headersGet (extractSafeHeaders H (some l)) q =
        match headersGet H q with
        | some v =>
          if v ≠ [] ∧ lowerStr q ∈ SAFE_HEADERS ∧ (∃ n ∈ l, lowerStr n = lowerStr q)
          then some v else none
        | none => none) := by
  constructor
  · intro H fw p hp
    cases fw with
    | some l =>
      exact foldl_forwardStep_keys H l [] (by simp) p hp
    | none =>
      rw [extractSafeHeaders_none_eq_some_safe] at hp
      exact foldl_forwardStep_keys H SAFE_HEADERS [] (by simp) p hp
  · intro H l q
    unfold extractSafeHeaders
    rw [headersGet_foldl_forwardStep H q l [] (by simp), headersGet_nil]
    cases hg : headersGet H q with
    | none =>
      have hfv : fwdValue H q = none := by simp [fwdValue, hg]
      rw [if_neg (fun hh => by rw [hfv] at hh; exact absurd hh.2.2 (by simp))]
    | some v =>
      by_cases he : v = []
      · subst he
        have hfv : fwdValue H q = none := by simp [fwdValue, hg]
        rw [if_neg (fun hh => by rw [hfv] at hh; exact absurd hh.2.2 (by simp))]
        simp
      · have hfv : fwdValue H q = some v := by simp [fwdValue, hg, he]
        by_cases hC : lowerStr q ∈ SAFE_HEADERS
        · by_cases hE : ∃ n ∈ l, lowerStr n = lowerStr q
          · rw [if_pos ⟨hE, hC, by rw [hfv]; rfl⟩, hfv]
            simp [he, hC, hE]
          · rw [if_neg (fun hh => hE hh.1)]
            simp [hE]
        · rw [if_neg (fun hh => hC hh.2.1)]
          simp [hC]

/-- Witness for the amended claim C2 at a concrete input. -/
theorem extractSafeHeaders_allowlist_intersection_witness :
    ("user-agent".data ∈ SAFE_HEADERS) ∧
    headersGet (extractSafeHeaders inboundFixture
        (some ["User-Agent".data, "x-api-key".data])) ("user-agent".data) =
      some ("UA".data) := by
  constructor
  · exact extractSafeHeaders_allowlist_intersection.1 inboundFixture none
      (("user-agent".data : List Char), ("UA".data : List Char)) (by decide)
  · rw [extractSafeHeaders_allowlist_intersection.2 inboundFixture
      ["User-Agent".data, "x-api-key".data] ("user-agent".data)]
    decide

/-! ### Claim C9: empty-valued inbound headers behave as absent -/

/-- Claim C9: an allow-listed header carried by the inbound request with
the empty-string value is omitted from the outbound set, and the outbound
set is exactly the one computed from the request with that header
deleted. -/
theorem extractSafeHeaders_empty_value_as_absent :
    ∀ (H : HeadersMap) (name : List Char) (fw : Option (List (List Char))),
      headersGet H name = some [] →
      headersGet (extractSafeHeaders H fw) name = none ∧
      extractSafeHeaders H fw = extractSafeHeaders (headersDelete H name) fw :=
  fun H name fw h =>
    ⟨extract_get_of_empty H name fw h, (extract_delete H name fw h).symm⟩

/-- Witness for claim C9 at a concrete input. -/
theorem extractSafeHeaders_empty_value_as_absent_witness :
    headersGet (extractSafeHeaders inboundFixture none) ("accept".data) = none ∧
    extractSafeHeaders inboundFixture none =
      extractSafeHeaders (headersDelete inboundFixture ("accept".data)) none :=
  extractSafeHeaders_empty_value_as_absent inboundFixture ("accept".data) none
    (by decide)

/-! ### Claim C10: the realized body length gate -/

/-- Claim C10: the realized-body-length check runs unconditionally after
the body is read, so any body above the effective ceiling yields 413
whatever the Content-Length header claimed, and a carried but non-numeric
Content-Length header never causes rejection by itself. -/
theorem realized_length_check_unconditional :
    (∀ (t : TurndownConfig → List Char → List Char) (resp : UpstreamResponse)
      (url : List Char) (opts : Option MarkdownMiddlewareOptions),
      resp.status = 200 → contentTypeOk resp.contentType = true →
      effectiveMaxRequestSize opts < resp.body.length →
      (handleFetchSuccess t resp url opts).status = 413) ∧
    (∀ (t : TurndownConfig → List Char → List Char) (resp : UpstreamResponse)
      (url : List Char) (opts : Option MarkdownMiddlewareOptions) (cl : List Char),
      resp.status = 200 → contentTypeOk resp.contentType = true →
      resp.contentLength = some cl → jsParseInt cl = none →
      resp.body.length ≤ effectiveMaxRequestSize opts →
      (handleFetchSuccess t resp url opts).status = 200) := by
  constructor
  · intro t resp url opts h200 hct hlen
    have h404 : ¬(resp.status = 404) := by rw [h200]; decide
    have hok : ¬(respOk resp = false) := by
      unfold respOk
      rw [h200]
      decide
    have hctn : ¬(contentTypeOk resp.contentType = false) := by
      rw [hct]
      decide
    unfold handleFetchSuccess
    rw [if_neg h404, if_neg hok, if_neg hctn]
    by_cases htl : tooLargeByHeader resp opts = true
    · rw [if_pos htl]
    · rw [if_neg htl, if_pos hlen]
  · intro t resp url opts cl h200 hct hcl hparse hlen
    have h404 : ¬(resp.status = 404) := by rw [h200]; decide
    have hok : ¬(respOk resp = false) := by
      unfold respOk
      rw [h200]
      decide
    have hctn : ¬(contentTypeOk resp.contentType = false) := by
      rw [hct]
      decide
    have htl : ¬(tooLargeByHeader resp opts = true) := by
      unfold tooLargeByHeader
      rw [hcl]
      by_cases hce : cl.isEmpty = true
      · simp [hce]
      · simp [hce, hparse]
    unfold handleFetchSuccess
    rw [if_neg h404, if_neg hok, if_neg hctn, if_neg htl, if_neg (not_lt.mpr hlen)]

/-- Witness for claim C10 at concrete inputs: a two-byte body over a
one-byte ceiling is rejected even though the Content-Length header was
within the limit, and a non-numeric Content-Length header alone never
rejects. -/
theorem realized_length_check_unconditional_witness :
    (handleFetchSuccess convIdentity
      (⟨200, "OK".data, some ("text/html".data), some ("1".data), "ab".data⟩ :
        UpstreamResponse) ("u".data) (some optsOne)).status = 413 ∧
    (handleFetchSuccess convIdentity
      (⟨200, "OK".data, some ("text/html".data), some ("abc".data), "a".data⟩ :
        UpstreamResponse) ("u".data) (some optsOne)).status = 200 := by
  constructor
  · exact realized_length_check_unconditional.1 convIdentity
      (⟨200, "OK".data, some ("text/html".data), some ("1".data), "ab".data⟩ :
        UpstreamResponse) ("u".data) (some optsOne) rfl (by decide) (by decide)
  · exact realized_length_check_unconditional.2 convIdentity
      (⟨200, "OK".data, some ("text/html".data), some ("abc".data), "a".data⟩ :
        UpstreamResponse) ("u".data) (some optsOne) ("abc".data) rfl (by decide) rfl
      (by decide) (by decide)

/-- A gate result with status 200 is the success assembly. -/
theorem handleFetchSuccess_success_form
    (t : TurndownConfig → List Char → List Char) (resp : UpstreamResponse)
    (url : List Char) (opts : Option MarkdownMiddlewareOptions)
    (hst : (handleFetchSuccess t resp url opts).status = 200) :
    handleFetchSuccess t resp url opts =
      ⟨200, convertHtmlToMarkdown t resp.body url
        (opts.bind MarkdownMiddlewareOptions.turndown), successHeaders opts⟩ := by
  unfold handleFetchSuccess at hst ⊢
  by_cases h1 : resp.status = 404
  · rw [if_pos h1] at hst
    exact absurd hst (by decide)
  · rw [if_neg h1] at hst ⊢
    by_cases h2 : respOk resp = false
    · rw [if_pos h2] at hst
      have h200 : resp.status = 200 := hst
      unfold respOk at h2
      rw [h200] at h2
      exact absurd h2 (by decide)
    · rw [if_neg h2] at hst ⊢
      by_cases h3 : contentTypeOk resp.contentType = false
      · rw [if_pos h3] at hst
        exact absurd hst (by decide)
      · rw [if_neg h3] at hst ⊢
        by_cases h4 : tooLargeByHeader resp opts = true
        · rw [if_pos h4] at hst
          exact absurd hst (by decide)
        · rw [if_neg h4] at hst ⊢
          by_cases h5 : effectiveMaxRequestSize opts < resp.body.length
          · rw [if_pos h5] at hst
            exact absurd hst (by decide)
          · rw [if_neg h5]

/-! ### Claim C5: what the or-defaulting actually does -/

/-- Claim C5 (amended): the defaulting of the numeric fields is the JS
logical-or, so an explicitly zero fetchTimeout arms the 30000 default
deadline, an explicitly zero cache max-age emits the 3600 directive on a
successful response, and an explicitly zero maxRequestSize enforces the
10 MiB default ceiling rather than zero. -/
theorem or_defaulting_behavior :
    (∀ (t : TurndownConfig → List Char → List Char)
      (fb : List Char → HeadersMap → Nat → FetchOutcome)
      (req : MiddlewareRequest) (opts : Option MarkdownMiddlewareOptions),
      opts.bind MarkdownMiddlewareOptions.fetchTimeout = some 0 →
      handleMarkdownRequest t fb req opts =
        handleMarkdownRequest t (fun u h _ => fb u h DEFAULT_FETCH_TIMEOUT) req opts) ∧
    (∀ (t : TurndownConfig → List Char → List Char) (resp : UpstreamResponse)
      (url : List Char) (opts : Option MarkdownMiddlewareOptions) (c : CacheOptions),
      opts.bind MarkdownMiddlewareOptions.cache = some c → c.enabled = true →
      c.maxAge = some 0 → opts.bind MarkdownMiddlewareOptions.headers = none →
      (handleFetchSuccess t resp url opts).status = 200 →
      headersGet (handleFetchSuccess t resp url opts).headers ("cache-control".data) =
        some (cacheControlValue 3600)) ∧
    (∀ (t : TurndownConfig → List Char → List Char) (resp : UpstreamResponse)
      (url : List Char) (opts : Option MarkdownMiddlewareOptions),
      opts.bind MarkdownMiddlewareOptions.maxRequestSize = some 0 →
      resp.status = 200 → resp.contentLength = none →
      resp.body.length ≤ DEFAULT_MAX_REQUEST_SIZE →
      (handleFetchSuccess t resp url opts).status ≠ 413) := by
  refine ⟨?_, ?_, ?_⟩
  · intro t fb req opts h
    have heff : effectiveFetchTimeout opts = DEFAULT_FETCH_TIMEOUT := by
      unfold effectiveFetchTimeout
      rw [h]
      decide
    unfold handleMarkdownRequest
    rw [heff]
  · intro t resp url opts c hc hen hma hh hst
    rw [handleFetchSuccess_success_form t resp url opts hst]
    show headersGet (successHeaders opts) ("cache-control".data) =
      some (cacheControlValue 3600)
    unfold successHeaders
    simp only [hc, hh, hen, hma, if_true]
    decide
  · intro t resp url opts hms h200 hcl hlen
    have heff : effectiveMaxRequestSize opts = DEFAULT_MAX_REQUEST_SIZE := by
      unfold effectiveMaxRequestSize
      rw [hms]
      decide
    have h404 : ¬(resp.status = 404) := by rw [h200]; decide
    unfold handleFetchSuccess
    by_cases h2 : respOk resp = false
    · rw [if_neg h404, if_pos h2]
      show resp.status ≠ 413
      rw [h200]
      decide
    · rw [if_neg h404, if_neg h2]
      by_cases h3 : contentTypeOk resp.contentType = false
      · rw [if_pos h3]
        decide
      · rw [if_neg h3]
        have htl : ¬(tooLargeByHeader resp opts = true) := by
          unfold tooLargeByHeader
          rw [hcl]
          simp
        rw [if_neg htl, if_neg (by rw [heff]; exact not_lt.mpr hlen)]
        show (200 : Nat) ≠ 413
        decide

/-- Witness for the amended claim C5 at concrete inputs. -/
theorem or_defaulting_behavior_witness :
    (handleMarkdownRequest convIdentity (fun _ _ _ => FetchOutcome.abortError)
        gateRequest (some optsZero) =
      handleMarkdownRequest convIdentity
        (fun u h _ => (fun _ _ _ => FetchOutcome.abortError : List Char → HeadersMap →
          Nat → FetchOutcome) u h DEFAULT_FETCH_TIMEOUT) gateRequest (some optsZero)) ∧
    (headersGet (handleFetchSuccess convIdentity (htmlResp ("a".data)) ("u".data)
        (some optsZero)).headers ("cache-control".data) =
      some (cacheControlValue 3600)) ∧
    (handleFetchSuccess convIdentity (htmlResp ("a".data)) ("u".data)
        (some optsZero)).status ≠ 413 := by
  refine ⟨?_, ?_, ?_⟩
  · exact or_defaulting_behavior.1 convIdentity (fun _ _ _ => FetchOutcome.abortError)
      gateRequest (some optsZero) rfl
  · exact or_defaulting_behavior.2.1 convIdentity (htmlResp ("a".data)) ("u".data)
      (some optsZero) ⟨true, some 0⟩ rfl rfl rfl rfl (by decide)
  · exact or_defaulting_behavior.2.2 convIdentity (htmlResp ("a".data)) ("u".data)
      (some optsZero) rfl rfl rfl (by decide)

/-! ### Claim C8: when the error hook is consulted -/

/-- A delivered upstream response is gated by the response assembly alone
under an eligible, validation-passing request: the options error hook
plays no part in this path. -/
theorem handleMarkdownRequest_success_outcome
    (t : TurndownConfig → List Char → List Char) (req : MiddlewareRequest)
    (opts : MarkdownMiddlewareOptions) (resp : UpstreamResponse)
    (hmd : strEnds mdSuffix req.pathname = true)
    (hex : shouldExcludePath req.pathname opts.exclude = false)
    (hval : (requestValidation req).isValid = true) :
    handleMarkdownRequest t (fun _ _ _ => FetchOutcome.success resp) req (some opts) =
      some (handleFetchSuccess t resp (resolvedUrlString req) (some opts)) := by
  have h1 : ¬(strEnds mdSuffix req.pathname = false) := by rw [hmd]; decide
  have h2 : ¬(shouldExcludePath req.pathname
      ((some opts).bind MarkdownMiddlewareOptions.exclude) = true) := by
    have hb : (some opts).bind MarkdownMiddlewareOptions.exclude = opts.exclude := rfl
    rw [hb, hex]
    decide
  unfold handleMarkdownRequest
  rw [if_neg h1, if_neg h2]
  simp only []
  rw [if_neg (by rw [hval]; decide)]

/-- Claim C8 (amended): the caller error hook is consulted exactly for
errors that surface as thrown exceptions, where a non-null hook response
is used verbatim and a null one falls back to the default 500 JSON
mapping; the Forbidden, NotFound, Timeout, Upstream, UnsupportedMediaType
and PayloadTooLarge failures are mapped by the default mapping directly,
whatever hook the options carry. -/
theorem onError_only_for_thrown_errors :
    (∀ (t : TurndownConfig → List Char → List Char) (req : MiddlewareRequest)
      (opts : MarkdownMiddlewareOptions)
      (f : List Char → MiddlewareRequest → Option MwResponse) (msg : List Char),
      opts.onError = some f →
      strEnds mdSuffix req.pathname = true →
      shouldExcludePath req.pathname opts.exclude = false →
      (requestValidation req).isValid = true →
      handleMarkdownRequest t (fun _ _ _ => FetchOutcome.failure msg) req (some opts) =
        some (match f msg req with
          | some r => r
          | none => ⟨500, jsonStringifyError msg, jsonCT⟩)) ∧
    (∀ (t : TurndownConfig → List Char → List Char)
      (fb : List Char → HeadersMap → Nat → FetchOutcome) (req : MiddlewareRequest)
      (opts : MarkdownMiddlewareOptions),
      strEnds mdSuffix req.pathname = true →
      shouldExcludePath req.pathname opts.exclude = false →
      (requestValidation req).isValid = false →
      handleMarkdownRequest t fb req (some opts) =
        some ⟨403, jsonStringifyError ((requestValidation req).error.getD []), jsonCT⟩) ∧
    (∀ (t : TurndownConfig → List Char → List Char) (req : MiddlewareRequest)
      (opts : MarkdownMiddlewareOptions) (resp : UpstreamResponse),
      resp.status = 404 →
      strEnds mdSuffix req.pathname = true →
      shouldExcludePath req.pathname opts.exclude = false →
      (requestValidation req).isValid = true →
      handleMarkdownRequest t (fun _ _ _ => FetchOutcome.success resp) req (some opts) =
        some ⟨404, "Not Found".data, []⟩) ∧
    (∀ (t : TurndownConfig → List Char → List Char) (req : MiddlewareRequest)
      (opts : MarkdownMiddlewareOptions),
      strEnds mdSuffix req.pathname = true →
      shouldExcludePath req.pathname opts.exclude = false →
      (requestValidation req).isValid = true →
      handleMarkdownRequest t (fun _ _ _ => FetchOutcome.abortError) req (some opts) =
        some ⟨504, "Request Timeout".data, []⟩) ∧
    (∀ (t : TurndownConfig → List Char → List Char) (req : MiddlewareRequest)
      (opts : MarkdownMiddlewareOptions) (resp : UpstreamResponse),
      resp.status ≠ 404 →
      respOk resp = false →
      strEnds mdSuffix req.pathname = true →
      shouldExcludePath req.pathname opts.exclude = false →
      (requestValidation req).isValid = true →
      handleMarkdownRequest t (fun _ _ _ => FetchOutcome.success resp) req (some opts) =
        some ⟨resp.status, "Failed to fetch: ".data ++ resp.statusText, []⟩) ∧
    (∀ (t : TurndownConfig → List Char → List Char) (req : MiddlewareRequest)
      (opts : MarkdownMiddlewareOptions) (resp : UpstreamResponse),
      resp.status = 200 →
      contentTypeOk resp.contentType = false →
      strEnds mdSuffix req.pathname = true →
      shouldExcludePath req.pathname opts.exclude = false →
      (requestValidation req).isValid = true →
      handleMarkdownRequest t (fun _ _ _ => FetchOutcome.success resp) req (some opts) =
        some ⟨415, "Content-Type must be text/html or application/xhtml+xml".data, []⟩) ∧
    (∀ (t : TurndownConfig → List Char → List Char) (req : MiddlewareRequest)
      (opts : MarkdownMiddlewareOptions) (resp : UpstreamResponse),
      resp.status = 200 →
      contentTypeOk resp.contentType = true →
      tooLargeByHeader resp (some opts) = true →
      strEnds mdSuffix req.pathname = true →
      shouldExcludePath req.pathname opts.exclude = false →
      (requestValidation req).isValid = true →
      handleMarkdownRequest t (fun _ _ _ => FetchOutcome.success resp) req (some opts) =
        some ⟨413, "Request Entity Too Large".data, []⟩) := by
  refine ⟨?_, ?_, ?_, ?_, ?_, ?_, ?_⟩
  · intro t req opts f msg hf hmd hex hval
    have h1 : ¬(strEnds mdSuffix req.pathname = false) := by rw [hmd]; decide
    have h2 : ¬(shouldExcludePath req.pathname
        ((some opts).bind MarkdownMiddlewareOptions.exclude) = true) := by
      have hb : (some opts).bind MarkdownMiddlewareOptions.exclude = opts.exclude := rfl
      rw [hb, hex]
      decide
    unfold handleMarkdownRequest
    rw [if_neg h1, if_neg h2]
    simp only []
    rw [if_neg (by rw [hval]; decide)]
    simp only [Option.some_bind, hf]
    cases hr : f msg req with
    | some r => rfl
    | none => rfl
  · intro t fb req opts hmd hex hval
    have h1 : ¬(strEnds mdSuffix req.pathname = false) := by rw [hmd]; decide
    have h2 : ¬(shouldExcludePath req.pathname
        ((some opts).bind MarkdownMiddlewareOptions.exclude) = true) := by
      have hb : (some opts).bind MarkdownMiddlewareOptions.exclude = opts.exclude := rfl
      rw [hb, hex]
      decide
    unfold handleMarkdownRequest
    rw [if_neg h1, if_neg h2]
    simp only []
    rw [if_pos hval]
  · intro t req opts resp h404 hmd hex hval
    rw [handleMarkdownRequest_success_outcome t req opts resp hmd hex hval]
    unfold handleFetchSuccess
    rw [if_pos h404]
  · intro t req opts hmd hex hval
    have h1 : ¬(strEnds mdSuffix req.pathname = false) := by rw [hmd]; decide
    have h2 : ¬(shouldExcludePath req.pathname
        ((some opts).bind MarkdownMiddlewareOptions.exclude) = true) := by
      have hb : (some opts).bind MarkdownMiddlewareOptions.exclude = opts.exclude := rfl
      rw [hb, hex]
      decide
    unfold handleMarkdownRequest
    rw [if_neg h1, if_neg h2]
    simp only []
    rw [if_neg (by rw [hval]; decide)]
  · intro t req opts resp h404 hok hmd hex hval
    rw [handleMarkdownRequest_success_outcome t req opts resp hmd hex hval]
    unfold handleFetchSuccess
    rw [if_neg h404, if_pos hok]
  · intro t req opts resp h200 hct hmd hex hval
    rw [handleMarkdownRequest_success_outcome t req opts resp hmd hex hval]
    have h404 : ¬(resp.status = 404) := by rw [h200]; decide
    have hok : ¬(respOk resp = false) := by
      unfold respOk
      rw [h200]
      decide
    unfold handleFetchSuccess
    rw [if_neg h404, if_neg hok, if_pos hct]
  · intro t req opts resp h200 hct htl hmd hex hval
    rw [handleMarkdownRequest_success_outcome t req opts resp hmd hex hval]
    have h404 : ¬(resp.status = 404) := by rw [h200]; decide
    have hok : ¬(respOk resp = false) := by
      unfold respOk
      rw [h200]
      decide
    have hctn : ¬(contentTypeOk resp.contentType = false) := by
      rw [hct]
      decide
    unfold handleFetchSuccess
    rw [if_neg h404, if_neg hok, if_neg hctn, if_pos htl]

/-- Witness for the amended claim C8 at concrete inputs: the hook answer
is used verbatim for a thrown fetch error, while an upstream 500, a
wrong content type and an oversized Content-Length are all mapped by the
default mapping even though the same hook is installed. -/
theorem onError_only_for_thrown_errors_witness :
    (handleMarkdownRequest convIdentity (fun _ _ _ => FetchOutcome.failure ("x".data))
      gateRequest (some optsHook) = some hookResponse) ∧
    (handleMarkdownRequest convIdentity (fun _ _ _ => FetchOutcome.success
        (⟨500, "Server Error".data, none, none, []⟩ : UpstreamResponse))
      gateRequest (some optsHook) =
      some ⟨500, "Failed to fetch: ".data ++ "Server Error".data, []⟩) ∧
    (handleMarkdownRequest convIdentity (fun _ _ _ => FetchOutcome.success
        (⟨200, "OK".data, some ("application/json".data), none, []⟩ :
          UpstreamResponse)) gateRequest (some optsHook) =
      some ⟨415, "Content-Type must be text/html or application/xhtml+xml".data, []⟩) ∧
    (handleMarkdownRequest convIdentity (fun _ _ _ => FetchOutcome.success
        (⟨200, "OK".data, some ("text/html".data), some ("99999999".data), []⟩ :
          UpstreamResponse)) gateRequest (some optsHook) =
      some ⟨413, "Request Entity Too Large".data, []⟩) := by
  refine ⟨?_, ?_, ?_, ?_⟩
  · exact onError_only_for_thrown_errors.1 convIdentity gateRequest optsHook
      (fun _ _ => some hookResponse) ("x".data) rfl (by decide) (by decide) (by decide)
  · exact onError_only_for_thrown_errors.2.2.2.2.1 convIdentity gateRequest optsHook
      (⟨500, "Server Error".data, none, none, []⟩ : UpstreamResponse) (by decide)
      (by decide) (by decide) (by decide) (by decide)
  · exact onError_only_for_thrown_errors.2.2.2.2.2.1 convIdentity gateRequest optsHook
      (⟨200, "OK".data, some ("application/json".data), none, []⟩ : UpstreamResponse)
      rfl (by decide) (by decide) (by decide) (by decide)
  · exact onError_only_for_thrown_errors.2.2.2.2.2.2 convIdentity gateRequest optsHook
      (⟨200, "OK".data, some ("text/html".data), some ("99999999".data), []⟩ :
        UpstreamResponse) rfl (by decide) (by decide) (by decide) (by decide)
      (by decide)

/-- Claim C6 (amended): for every positive configured maxRequestSize, a
payload of exactly that size succeeds, and a payload one byte larger
fails with 413, both when the size is signalled by a numeric
Content-Length header and when it is only realized as the body length. -/
theorem payload_size_limit_boundary :
    ∀ (m : Nat) (t : TurndownConfig → List Char → List Char)
      (opts : MarkdownMiddlewareOptions) (resp : UpstreamResponse),
      0 < m →
      opts.maxRequestSize = some m →
      shouldExcludePath gateRequest.pathname opts.exclude = false →
      resp.status = 200 →
      contentTypeOk resp.contentType = true →
      (((resp.contentLength = none ∨
          ∃ cl, resp.contentLength = some cl ∧ jsParseInt cl = some (m : Int)) →
        resp.body.length = m →
        (handleMarkdownRequest t (fun _ _ _ => FetchOutcome.success resp) gateRequest
          (some opts)).map MwResponse.status = some 200) ∧
       ((∃ cl, resp.contentLength = some cl ∧ jsParseInt cl = some ((m : Int) + 1)) →
        (handleMarkdownRequest t (fun _ _ _ => FetchOutcome.success resp) gateRequest
          (some opts)).map MwResponse.status = some 413) ∧
       (resp.contentLength = none → resp.body.length = m + 1 →
        (handleMarkdownRequest t (fun _ _ _ => FetchOutcome.success resp) gateRequest
          (some opts)).map MwResponse.status = some 413)) := by
  intro m t opts resp hm hms hex h200 hct
  have hred : handleMarkdownRequest t (fun _ _ _ => FetchOutcome.success resp)
      gateRequest (some opts) =
      some (handleFetchSuccess t resp (resolvedUrlString gateRequest) (some opts)) := by
    have h1 : ¬(strEnds mdSuffix gateRequest.pathname = false) := by decide
    have h2 : ¬(shouldExcludePath gateRequest.pathname
        ((some opts).bind MarkdownMiddlewareOptions.exclude) = true) := by
      have hb : (some opts).bind MarkdownMiddlewareOptions.exclude = opts.exclude := rfl
      rw [hb, hex]
      decide
    unfold handleMarkdownRequest
    rw [if_neg h1, if_neg h2]
    simp only []
    rw [if_neg (by decide : ¬((requestValidation gateRequest).isValid = false))]
  have heff : effectiveMaxRequestSize (some opts) = m := by
    have hb : (some opts).bind MarkdownMiddlewareOptions.maxRequestSize = some m := hms
    unfold effectiveMaxRequestSize
    rw [hb]
    simp [jsOrNat, Nat.pos_iff_ne_zero.mp hm]
  have h404 : ¬(resp.status = 404) := by rw [h200]; decide
  have hok : ¬(respOk resp = false) := by
    unfold respOk
    rw [h200]
    decide
  have hctn : ¬(contentTypeOk resp.contentType = false) := by
    rw [hct]
    decide
  refine ⟨?_, ?_, ?_⟩
  · intro hcl hlen
    have htl : ¬(tooLargeByHeader resp (some opts) = true) := by
      unfold tooLargeByHeader
      rcases hcl with hnone | ⟨cl, hsome, hparse⟩
      · rw [hnone]
        simp
      · have hcne : cl.isEmpty = false := by
          cases cl with
          | nil =>
            rw [show jsParseInt ([] : List Char) = none from rfl] at hparse
            exact Option.noConfusion hparse
          | cons c cs => rfl
        simp only [hsome, hcne, Bool.false_eq_true, if_false, hparse, heff]
        simp
    have hgate : (handleFetchSuccess t resp (resolvedUrlString gateRequest)
        (some opts)).status = 200 := by
      unfold handleFetchSuccess
      rw [if_neg h404, if_neg hok, if_neg hctn, if_neg htl,
        if_neg (by rw [heff, hlen]; exact lt_irrefl m)]
    rw [hred]
    show some ((handleFetchSuccess t resp (resolvedUrlString gateRequest)
      (some opts)).status) = some 200
    rw [hgate]
  · intro ⟨cl, hsome, hparse⟩
    have hcne : cl.isEmpty = false := by
      cases cl with
      | nil =>
        rw [show jsParseInt ([] : List Char) = none from rfl] at hparse
        exact Option.noConfusion hparse
      | cons c cs => rfl
    have htl : tooLargeByHeader resp (some opts) = true := by
      unfold tooLargeByHeader
      simp only [hsome, hcne, Bool.false_eq_true, if_false, hparse, heff]
      simp only [decide_eq_true_eq]
      omega
    have hgate : (handleFetchSuccess t resp (resolvedUrlString gateRequest)
        (some opts)).status = 413 := by
      unfold handleFetchSuccess
      rw [if_neg h404, if_neg hok, if_neg hctn, if_pos htl]
    rw [hred]
    show some ((handleFetchSuccess t resp (resolvedUrlString gateRequest)
      (some opts)).status) = some 413
    rw [hgate]
  · intro hnone hlen
    have htl : ¬(tooLargeByHeader resp (some opts) = true) := by
      unfold tooLargeByHeader
      rw [hnone]
      simp
    have hgate : (handleFetchSuccess t resp (resolvedUrlString gateRequest)
        (some opts)).status = 413 := by
      unfold handleFetchSuccess
      rw [if_neg h404, if_neg hok, if_neg hctn, if_neg htl,
        if_pos (by rw [heff, hlen]; exact Nat.lt_succ_self m)]
    rw [hred]
    show some ((handleFetchSuccess t resp (resolvedUrlString gateRequest)
      (some opts)).status) = some 413
    rw [hgate]

/-- Witness for the amended claim C6 at the one-byte ceiling: a one-byte
body succeeds, a Content-Length of two rejects, and a two-byte body
without Content-Length rejects. -/
theorem payload_size_limit_boundary_witness :
    (handleMarkdownRequest convIdentity (fun _ _ _ => FetchOutcome.success
        (htmlResp ("a".data))) gateRequest (some optsOne)).map MwResponse.status =
      some 200 ∧
    (handleMarkdownRequest convIdentity (fun _ _ _ => FetchOutcome.success
        (⟨200, "OK".data, some ("text/html".data), some ("2".data), []⟩ :
          UpstreamResponse)) gateRequest (some optsOne)).map MwResponse.status =
      some 413 ∧
    (handleMarkdownRequest convIdentity (fun _ _ _ => FetchOutcome.success
        (htmlResp ("ab".data))) gateRequest (some optsOne)).map MwResponse.status =
      some 413 := by
  refine ⟨?_, ?_, ?_⟩
  · exact (payload_size_limit_boundary 1 convIdentity optsOne (htmlResp ("a".data))
      (by decide) rfl (by decide) rfl (by decide)).1 (Or.inl rfl) (by decide)
  · exact (payload_size_limit_boundary 1 convIdentity optsOne
      (⟨200, "OK".data, some ("text/html".data), some ("2".data), []⟩ :
        UpstreamResponse) (by decide) rfl (by decide) rfl (by decide)).2.1
      ⟨"2".data, rfl, by decide⟩
  · exact (payload_size_limit_boundary 1 convIdentity optsOne (htmlResp ("ab".data))
      (by decide) rfl (by decide) rfl (by decide)).2.2 rfl (by decide)

/-! ### Claim C4: the shapes of error bodies -/

/-- Claim C4 (amended): every non-200 response of the pipeline either
comes verbatim from the caller error hook, or carries one of the fixed
generic bodies, or the upstream status text after the fixed fetch-failure
prefix, or the JSON validation-error body (the SSRF rejection naming only
the rejected hostname, or the Missing Host message), or — for a thrown
exception — the default 500 JSON body embedding that exception message;
in particular upstream response bodies never appear. -/
theorem error_body_shapes :
    ∀ (t : TurndownConfig → List Char → List Char)
      (fb : List Char → HeadersMap → Nat → FetchOutcome)
      (req : MiddlewareRequest) (opts : Option MarkdownMiddlewareOptions)
      (r : MwResponse),
      handleMarkdownRequest t fb req opts = some r → r.status ≠ 200 →
      (∃ f msg, opts.bind MarkdownMiddlewareOptions.onError = some f ∧
        f msg req = some r) ∨
      r.body ∈ genericErrorBodies ∨
      (∃ resp, fb (resolvedUrlString req)
          (extractSafeHeaders req.headers
            (opts.bind (fun o => o.headers.bind HeadersOptions.forward)))
          (effectiveFetchTimeout opts) = FetchOutcome.success resp ∧
        r.body = "Failed to fetch: ".data ++ resp.statusText) ∨
      r.body = jsonStringifyError ((requestValidation req).error.getD []) ∨
      (∃ msg, fb (resolvedUrlString req)
          (extractSafeHeaders req.headers
            (opts.bind (fun o => o.headers.bind HeadersOptions.forward)))
          (effectiveFetchTimeout opts) = FetchOutcome.failure msg ∧
        r.body = jsonStringifyError msg) := by
  intro t fb req opts r hres hstatus
  unfold handleMarkdownRequest at hres
  by_cases h1 : strEnds mdSuffix req.pathname = false
  · rw [if_pos h1] at hres
    exact Option.noConfusion hres
  · rw [if_neg h1] at hres
    by_cases h2 : shouldExcludePath req.pathname
        (opts.bind MarkdownMiddlewareOptions.exclude) = true
    · rw [if_pos h2] at hres
      exact Option.noConfusion hres
    · rw [if_neg h2] at hres
      simp only [] at hres
      by_cases h3 : (requestValidation req).isValid = false
      · rw [if_pos h3] at hres
        refine Or.inr (Or.inr (Or.inr (Or.inl ?_)))
        rw [← Option.some.inj hres]
      · rw [if_neg h3] at hres
        revert hres
        cases hout : fb (resolvedUrlString req)
            (extractSafeHeaders req.headers
              (opts.bind (fun o => o.headers.bind HeadersOptions.forward)))
            (effectiveFetchTimeout opts) with
        | success resp =>
          intro hres
          have hgr : handleFetchSuccess t resp (resolvedUrlString req) opts = r :=
            Option.some.inj hres
          subst hgr
          unfold handleFetchSuccess at hstatus ⊢
          by_cases g1 : resp.status = 404
          · rw [if_pos g1]
            refine Or.inr (Or.inl ?_)
            decide
          · rw [if_neg g1] at hstatus ⊢
            by_cases g2 : respOk resp = false
            · rw [if_pos g2]
              exact Or.inr (Or.inr (Or.inl ⟨resp, rfl, rfl⟩))
            · rw [if_neg g2] at hstatus ⊢
              by_cases g3 : contentTypeOk resp.contentType = false
              · rw [if_pos g3]
                refine Or.inr (Or.inl ?_)
                decide
              · rw [if_neg g3] at hstatus ⊢
                by_cases g4 : tooLargeByHeader resp opts = true
                · rw [if_pos g4]
                  refine Or.inr (Or.inl ?_)
                  decide
                · rw [if_neg g4] at hstatus ⊢
                  by_cases g5 : effectiveMaxRequestSize opts < resp.body.length
                  · rw [if_pos g5]
                    refine Or.inr (Or.inl ?_)
                    decide
                  · rw [if_neg g5] at hstatus
                    exact absurd rfl hstatus
        | abortError =>
          intro hres
          refine Or.inr (Or.inl ?_)
          rw [← Option.some.inj hres]
          decide
        | failure msg =>
          cases hhook : opts.bind MarkdownMiddlewareOptions.onError with
          | some hook =>
            cases hcall : hook msg req with
            | some r2 =>
              intro hres
              simp only [hcall] at hres
              exact Or.inl ⟨hook, msg, rfl,
                hcall.trans (congrArg some (Option.some.inj hres))⟩
            | none =>
              intro hres
              simp only [hcall] at hres
              refine Or.inr (Or.inr (Or.inr (Or.inr ⟨msg, rfl, ?_⟩)))
              rw [← Option.some.inj hres]
          | none =>
            intro hres
            refine Or.inr (Or.inr (Or.inr (Or.inr ⟨msg, rfl, ?_⟩)))
            rw [← Option.some.inj hres]
        | failureNonError =>
          intro hres
          refine Or.inr (Or.inl ?_)
          rw [← Option.some.inj hres]
          decide

/-- Witness for the amended claim C4 at a concrete SSRF-rejected run. -/
theorem error_body_shapes_witness :
    (∃ f msg, (none : Option MarkdownMiddlewareOptions).bind
        MarkdownMiddlewareOptions.onError = some f ∧
      f msg bracketHostRequest =
        some ⟨403, jsonStringifyError (externalUrlMsg ("[::1]".data)), jsonCT⟩) ∨
    (⟨403, jsonStringifyError (externalUrlMsg ("[::1]".data)), jsonCT⟩ :
      MwResponse).body ∈ genericErrorBodies ∨
    (∃ resp, (fun _ _ _ => FetchOutcome.abortError : List Char → HeadersMap → Nat →
        FetchOutcome) (resolvedUrlString bracketHostRequest)
        (extractSafeHeaders bracketHostRequest.headers
          ((none : Option MarkdownMiddlewareOptions).bind
            (fun o => o.headers.bind HeadersOptions.forward)))
        (effectiveFetchTimeout none) = FetchOutcome.success resp ∧
      (⟨403, jsonStringifyError (externalUrlMsg ("[::1]".data)), jsonCT⟩ :
        MwResponse).body = "Failed to fetch: ".data ++ resp.statusText) ∨
    (⟨403, jsonStringifyError (externalUrlMsg ("[::1]".data)), jsonCT⟩ :
      MwResponse).body =
      jsonStringifyError ((requestValidation bracketHostRequest).error.getD []) ∨
    (∃ msg, (fun _ _ _ => FetchOutcome.abortError : List Char → HeadersMap → Nat →
        FetchOutcome) (resolvedUrlString bracketHostRequest)
        (extractSafeHeaders bracketHostRequest.headers
          ((none : Option MarkdownMiddlewareOptions).bind
            (fun o => o.headers.bind HeadersOptions.forward)))
        (effectiveFetchTimeout none) = FetchOutcome.failure msg ∧
      (⟨403, jsonStringifyError (externalUrlMsg ("[::1]".data)), jsonCT⟩ :
        MwResponse).body = jsonStringifyError msg) :=
  error_body_shapes convIdentity (fun _ _ _ => FetchOutcome.abortError)
    bracketHostRequest none
    ⟨403, jsonStringifyError (externalUrlMsg ("[::1]".data)), jsonCT⟩
    (by decide) (by decide)
